import Mathlib

/-!
Shallow embedding of `rotkehlchen/poloniex.py`: the Poloniex exchange
client's historical-data retrieval code (trade/loan/deposit-withdrawal
queries, pagination, deduplication and the time-range trades cache) and
its result normalizers, together with theorems about the behaviour of
these functions.

Conventions of the embedding:
* timestamps are `Nat`;
* `FVal` (arbitrary-precision decimal) values are `Rat`; the `FVal(x)`
  constructor applied to an already-parsed numeric field is the identity
  and is therefore not reproduced;
* `createTimeStamp` (from `rotkehlchen.utils`, not part of the sources)
  parses a date string to a numeric timestamp; it is passed around as an
  explicit function parameter `cts : String → Nat`;
* the network (`self.api_query` and its wrappers) is an explicit function
  parameter mapping the query window to the rows the server answers with;
* Python exceptions are `Except String`.
-/

namespace Rotki

/-- Modelled from the spec: a stored trades-cache entry of the `Exchange`
base class (`check_trades_cache` / `update_trades_cache` are not under the
sources).  It records the covering time range `[start_ts, end_ts]` and the
stored payload. -/
structure CacheEntry (α : Type) where
  start_ts : Nat
  end_ts : Nat
  payload : α
  deriving Repr

/-- Modelled from the spec: `check(start, end_at_least, kind, qualifier)`
returns a previously stored payload if and only if the stored range covers
up to at least `end_at_least` and the cache's recorded start is ≤ the
requested `start`; otherwise it returns nothing. -/
def check_trades_cache {α : Type} (entry : Option (CacheEntry α))
    (start_ts end_at_least_ts : Nat) : Option α :=
  match entry with
  | none => none
  | some e =>
    if e.start_ts ≤ start_ts ∧ end_at_least_ts ≤ e.end_ts then some e.payload else none

/-- Modelled from the spec: `update(payload, start, end, kind, qualifier)`
persists the payload, recording the covering range as `[start, end]`,
overwriting any prior entry for that key. -/
def update_trades_cache {α : Type} (_entry : Option (CacheEntry α)) (payload : α)
    (start_ts end_ts : Nat) : Option (CacheEntry α) :=
  some ⟨start_ts, end_ts, payload⟩

/-- A currency pair.  In the source a pair is a string like `"BTC_ETH"`;
only its two components are ever accessed (via `get_pair_position`), so it
is embedded as the pair of its components. -/
structure TradePair where
  first : String
  second : String
  deriving DecidableEq, Repr

inductive PairPosition where
  | first
  | second
  deriving DecidableEq, Repr

/-- Modelled from the spec: `get_pair_position(pair, position)` (from
`rotkehlchen.utils`, not under the sources) returns the base (`first`) or
quote (`second`) asset of a currency pair. -/
def get_pair_position (pair : TradePair) : PairPosition → String
  | .first => pair.first
  | .second => pair.second

/-- A raw poloniex trade record, restricted to the fields
`trade_from_poloniex` and `query_trade_history` read. -/
structure PoloniexTrade where
  type : String
  amount : Rat
  rate : Rat
  fee : Rat
  date : String
  category : String
  deriving DecidableEq, Repr

/-- The common trade-history format (`rotkehlchen.order_formatting.Trade`),
restricted to the fields `trade_from_poloniex` fills in.  The `timestamp`
field is a one-element list: source line 46 reads
`timestamp = createTimeStamp(...),` with a trailing comma, so the Python
value stored is the 1-tuple `(createTimeStamp(...),)`. -/
structure Trade where
  timestamp : List Nat
  pair : TradePair
  type : String
  rate : Rat
  cost : Rat
  cost_currency : String
  fee : Rat
  fee_currency : String
  amount : Rat
  location : String
  deriving DecidableEq, Repr

/-- Embedding of `trade_from_poloniex(poloniex_trade, pair)`: turn a
poloniex trade returned from poloniex trade history into the common trade
history format, raising `ValueError` on an unknown trade type. -/
def trade_from_poloniex (cts : String → Nat) (poloniex_trade : PoloniexTrade)
    (pair : TradePair) : Except String Trade :=
  let trade_type := poloniex_trade.type
  let amount := poloniex_trade.amount
  let rate := poloniex_trade.rate
  let perc_fee := poloniex_trade.fee
  let base_currency := get_pair_position pair PairPosition.first
  let quote_currency := get_pair_position pair PairPosition.second
  let timestamp := [cts poloniex_trade.date]
  if trade_type = "buy" then
    let cost := rate * amount
    let cost_currency := base_currency
    let fee := amount * perc_fee
    let fee_currency := quote_currency
    Except.ok {
      timestamp := timestamp
      pair := pair
      type := if poloniex_trade.category = "settlement"
        then "settlement_" ++ trade_type else trade_type
      rate := rate
      cost := cost
      cost_currency := cost_currency
      fee := fee
      fee_currency := fee_currency
      amount := amount
      location := "poloniex" }
  else if trade_type = "sell" then
    let cost := amount * rate
    let cost_currency := base_currency
    let fee := cost * perc_fee
    let fee_currency := base_currency
    Except.ok {
      timestamp := timestamp
      pair := pair
      type := if poloniex_trade.category = "settlement"
        then "settlement_" ++ trade_type else trade_type
      rate := rate
      cost := cost
      cost_currency := cost_currency
      fee := fee
      fee_currency := fee_currency
      amount := amount
      location := "poloniex" }
  else
    Except.error ("Got unexpected trade type \"" ++ trade_type ++ "\" for poloniex trade")

/-- A dict element of a response's `return` list, restricted to the keys
`post_process` reads or writes (`datetime`, `timestamp`) plus a bag of
untouched other keys.  The numeric `timestamp` the source stores is
`float(createTimeStamp(...))`; the values occurring are small integers
for which the float conversion is exact, so it is embedded as `Nat`. -/
structure DictElem where
  datetime : Option String
  timestamp : Option Nat
  rest : List (String × String)
  deriving DecidableEq, Repr

/-- An element of a response's `return` list: a dict, or anything else. -/
inductive RetElem where
  | dict (d : DictElem)
  | nondict (s : String)
  deriving DecidableEq, Repr

/-- The value of a response's `return` field: a list, or anything else. -/
inductive RetVal where
  | list (xs : List RetElem)
  | nonlist (s : String)
  deriving DecidableEq, Repr

/-- A parsed API response: an optional `return` field plus a bag of other
fields which `post_process` never touches. -/
structure Response where
  ret : Option RetVal
  rest : List (String × String)
  deriving DecidableEq, Repr

/-- The per-element action of `Poloniex.post_process`: a dict that carries
a `datetime` key but no `timestamp` key receives a `timestamp` key holding
the parsed numeric timestamp of its `datetime` value; anything else is
left unchanged. -/
def post_process_elem (cts : String → Nat) : RetElem → RetElem
  | .dict d =>
    match d.datetime, d.timestamp with
    | some dt, none => .dict { d with timestamp := some (cts dt) }
    | _, _ => .dict d
  | .nondict s => .nondict s

/-- Embedding of `Poloniex.post_process(before)`: if the response has a
`return` field holding a list, rewrite each of its elements with
`post_process_elem`; otherwise return the response unchanged. -/
def post_process (cts : String → Nat) (before : Response) : Response :=
  match before.ret with
  | some (.list xs) => { before with ret := some (.list (xs.map (post_process_elem cts))) }
  | _ => before

/-- The payload of `returnTradeHistory` with `currencyPair='all'`: a dict
mapping each pair to its list of raw trades. -/
abbrev TradesDict := List (String × List PoloniexTrade)

/-- Outcome of one `query_trade_history` call: the returned value (or the
raised error), the trades-cache state after the call, and how many network
requests the call issued. -/
structure FetchOutcome (α : Type) where
  ret : Except String α
  cache : Option (CacheEntry α)
  network_calls : Nat
  deriving Repr

/-- Embedding of `Poloniex.query_trade_history(start_ts, end_ts,
end_at_least_ts)`.  `api start end` stands for
`returnTradeHistory(currencyPair='all', start, end)` (fixed limit 10000).
On a cache hit the cached payload is returned with no network request; on
a miss the endpoint is queried once, a total row count of 10000 or more
raises `ValueError` (leaving the cache untouched), and otherwise the
result is stored in the cache and returned. -/
def query_trade_history (cache : Option (CacheEntry TradesDict))
    (api : Nat → Nat → TradesDict) (start_ts end_ts end_at_least_ts : Nat) :
    FetchOutcome TradesDict :=
  match check_trades_cache cache start_ts end_at_least_ts with
  | some c => ⟨Except.ok c, cache, 0⟩
  | none =>
    let result := api start_ts end_ts
    let results_length := result.foldl (fun acc kv => acc + kv.2.length) (0 : Nat)
    if 10000 ≤ results_length then
      ⟨Except.error ("Poloniex api has a 10k limit to trade history. Have not implemented" ++
          " a solution for more than 10k trades at the moment"), cache, 1⟩
    else
      ⟨Except.ok result, update_trades_cache cache result start_ts end_ts, 1⟩

/-- A raw loan record, restricted to the fields `query_loan_history`
reads: the unique id and the close-time string. -/
structure Loan where
  id : Nat
  close : String
  deriving DecidableEq, Repr

/-- The page limit `loans_query_return_limit` used by
`query_loan_history`. -/
def loans_query_return_limit : Nat := 12000

/-- The batch pass of `query_loan_history`'s while-loop body: fold over
the returned rows keeping the running minimum close-timestamp (seeded with
`end_ts`) and inserting every row's id into the seen-id set. -/
def scan_batch (cts : String → Nat) (min_ts : Nat) (id_set : List Nat) :
    List Loan → Nat × List Nat
  | [] => (min_ts, id_set)
  | loan :: rest => scan_batch cts (min min_ts (cts loan.close)) (id_set.insert loan.id) rest

/-- The merge pass of `query_loan_history`'s while-loop body: keep, in
order, the newly returned rows whose id is not in the seen-id set. -/
def append_new_loans (id_set : List Nat) : List Loan → List Loan
  | [] => []
  | loan :: rest =>
    if loan.id ∈ id_set then append_new_loans id_set rest
    else loan :: append_new_loans id_set rest

/-- Embedding of the while-loop of `Poloniex.query_loan_history`.  `api
start end` stands for `returnLendingHistory(start, end,
loans_query_return_limit)`.  While the current response holds exactly
`loans_query_return_limit` rows: record the rows' ids and minimum
close-timestamp, re-query the window `[start_ts, min_ts]`, and append the
rows of the new response whose id was not yet seen.  The Python loop has
no built-in bound, so the embedding takes explicit fuel. -/
def query_loan_history_loop (cts : String → Nat) (api : Nat → Nat → List Loan)
    (start_ts end_ts : Nat) :
    Nat → List Loan → List Loan → List Nat → List Loan
  | 0, _, data, _ => data
  | fuel + 1, result, data, id_set =>
    if result.length = loans_query_return_limit then
      let scanned := scan_batch cts end_ts id_set result
      let min_ts := scanned.1
      let id_set2 := scanned.2
      let result2 := api start_ts min_ts
      query_loan_history_loop cts api start_ts end_ts fuel result2
        (data ++ append_new_loans id_set2 result2) id_set2
    else data

/-- Embedding of `Poloniex.query_loan_history(start_ts, end_ts,
end_at_least_ts)` with `from_csv=False` (the CSV branch is skipped).  On a
cache hit the cached list is returned unchanged; on a miss the endpoint is
queried and the pagination loop accumulates the deduplicated rows, which
are then stored in the cache.  Returns the row list and the cache state
after the call. -/
def query_loan_history (cts : String → Nat) (api : Nat → Nat → List Loan)
    (cache : Option (CacheEntry (List Loan))) (start_ts end_ts end_at_least_ts fuel : Nat) :
    List Loan × Option (CacheEntry (List Loan)) :=
  match check_trades_cache cache start_ts end_at_least_ts with
  | some c => (c, cache)
  | none =>
    let result := api start_ts end_ts
    let data := query_loan_history_loop cts api start_ts end_ts fuel result result []
    (data, update_trades_cache cache data start_ts end_ts)

/-- A raw deposit or withdrawal record, restricted to the fields
`query_deposits_withdrawals` reads. -/
structure RawMovement where
  timestamp : Nat
  currency : String
  amount : Rat
  fee : Rat
  deriving DecidableEq, Repr

/-- The payload of `returnDepositsWithdrawals`: the `withdrawals` and
`deposits` lists. -/
structure DWResult where
  withdrawals : List RawMovement
  deposits : List RawMovement
  deriving DecidableEq, Repr

/-- `rotkehlchen.order_formatting.AssetMovement`, restricted to the fields
`query_deposits_withdrawals` fills in. -/
structure AssetMovement where
  exchange : String
  category : String
  timestamp : Nat
  asset : String
  amount : Rat
  fee : Rat
  deriving DecidableEq, Repr

/-- The movement-building tail of `query_deposits_withdrawals`: one
`AssetMovement` per withdrawal (fee passed through), then one per deposit
(fee fixed at 0). -/
def movements_from_result (result : DWResult) : List AssetMovement :=
  result.withdrawals.map
    (fun w => ⟨"poloniex", "withdrawal", w.timestamp, w.currency, w.amount, w.fee⟩)
  ++ result.deposits.map
    (fun d => ⟨"poloniex", "deposit", d.timestamp, d.currency, d.amount, 0⟩)

/-- Embedding of `Poloniex.query_deposits_withdrawals(start_ts, end_ts,
end_at_least_ts)`.  `api start end` stands for
`returnDepositsWithdrawals(start, end)`.  On a cache miss the endpoint is
queried and the raw result cached; either way the raw result (cached or
fresh) is normalized into the movement list.  Returns the movements and
the cache state after the call. -/
def query_deposits_withdrawals (cache : Option (CacheEntry DWResult))
    (api : Nat → Nat → DWResult) (start_ts end_ts end_at_least_ts : Nat) :
    List AssetMovement × Option (CacheEntry DWResult) :=
  match check_trades_cache cache start_ts end_at_least_ts with
  | none =>
    let result := api start_ts end_ts
    (movements_from_result result, update_trades_cache cache result start_ts end_ts)
  | some c => (movements_from_result c, cache)

/-! ## Theorems -/

/-- C5: For every raw poloniex trade record: if its side is `buy`,
`trade_from_poloniex` produces a trade with cost = rate × amount,
cost_currency = the pair's base asset, fee = amount × fee_rate, and
fee_currency = the pair's quote asset; if its side is `sell`, it produces
cost = amount × rate, cost_currency = base asset, fee = cost × fee_rate,
and fee_currency = base asset. -/
theorem trade_from_poloniex_cost_fee_rules (cts : String → Nat)
    (t : PoloniexTrade) (pair : TradePair) :
    (t.type = "buy" → ∃ tr, trade_from_poloniex cts t pair = Except.ok tr
      ∧ tr.cost = t.rate * t.amount
      ∧ tr.cost_currency = get_pair_position pair PairPosition.first
      ∧ tr.fee = t.amount * t.fee
      ∧ tr.fee_currency = get_pair_position pair PairPosition.second)
    ∧ (t.type = "sell" → ∃ tr, trade_from_poloniex cts t pair = Except.ok tr
      ∧ tr.cost = t.amount * t.rate
      ∧ tr.cost_currency = get_pair_position pair PairPosition.first
      ∧ tr.fee = (t.amount * t.rate) * t.fee
      ∧ tr.fee_currency = get_pair_position pair PairPosition.first) := by
  constructor
  · intro h
    refine ⟨{ timestamp := [cts t.date]
              pair := pair
              type := if t.category = "settlement" then "settlement_" ++ t.type else t.type
              rate := t.rate
              cost := t.rate * t.amount
              cost_currency := get_pair_position pair PairPosition.first
              fee := t.amount * t.fee
              fee_currency := get_pair_position pair PairPosition.second
              amount := t.amount
              location := "poloniex" }, ?_, rfl, rfl, rfl, rfl⟩
    simp [trade_from_poloniex, h]
  · intro h
    refine ⟨{ timestamp := [cts t.date]
              pair := pair
              type := if t.category = "settlement" then "settlement_" ++ t.type else t.type
              rate := t.rate
              cost := t.amount * t.rate
              cost_currency := get_pair_position pair PairPosition.first
              fee := (t.amount * t.rate) * t.fee
              fee_currency := get_pair_position pair PairPosition.first
              amount := t.amount
              location := "poloniex" }, ?_, rfl, rfl, rfl, rfl⟩
    simp [trade_from_poloniex, h]

/-- Witness for C5 at the spec's test values: rate = 100, amount = 2,
fee_rate = 0.01; buy gives cost 200 and fee 0.02 in the quote currency,
sell gives cost 200 and fee 2 in the base currency. -/
theorem trade_from_poloniex_cost_fee_rules_witness :
    (∃ tr, trade_from_poloniex (fun _ => 0)
        ⟨"buy", 2, 100, 1 / 100, "2017-01-01 00:00:00", "exchange"⟩ ⟨"BTC", "ETH"⟩
        = Except.ok tr
      ∧ tr.cost = (100 : Rat) * 2
      ∧ tr.cost_currency = get_pair_position ⟨"BTC", "ETH"⟩ PairPosition.first
      ∧ tr.fee = (2 : Rat) * (1 / 100)
      ∧ tr.fee_currency = get_pair_position ⟨"BTC", "ETH"⟩ PairPosition.second)
    ∧ (∃ tr, trade_from_poloniex (fun _ => 0)
        ⟨"sell", 2, 100, 1 / 100, "2017-01-01 00:00:00", "exchange"⟩ ⟨"BTC", "ETH"⟩
        = Except.ok tr
      ∧ tr.cost = (2 : Rat) * 100
      ∧ tr.cost_currency = get_pair_position ⟨"BTC", "ETH"⟩ PairPosition.first
      ∧ tr.fee = ((2 : Rat) * 100) * (1 / 100)
      ∧ tr.fee_currency = get_pair_position ⟨"BTC", "ETH"⟩ PairPosition.first) :=
  ⟨(trade_from_poloniex_cost_fee_rules (fun _ => 0)
      ⟨"buy", 2, 100, 1 / 100, "2017-01-01 00:00:00", "exchange"⟩ ⟨"BTC", "ETH"⟩).1 rfl,
   (trade_from_poloniex_cost_fee_rules (fun _ => 0)
      ⟨"sell", 2, 100, 1 / 100, "2017-01-01 00:00:00", "exchange"⟩ ⟨"BTC", "ETH"⟩).2 rfl⟩

/-- C6 (divergence witness): on a well-formed buy record the `timestamp`
field of the returned trade is the one-element tuple
`(createTimeStamp(date),)` — not the numeric timestamp itself — because
source line 46 ends in a trailing comma.  Here `createTimeStamp` maps the
date string to `1483228800`, and the stored field is the tuple
`[1483228800]` of length 1 rather than the number `1483228800`. -/
theorem trade_from_poloniex_timestamp_is_one_tuple :
    ∃ tr, trade_from_poloniex (fun _ => 1483228800)
        ⟨"buy", 2, 100, 1 / 100, "2017-01-01 00:00:00", "exchange"⟩ ⟨"BTC", "ETH"⟩
        = Except.ok tr
      ∧ tr.timestamp = [1483228800] ∧ tr.timestamp.length = 1 := by
  refine ⟨{ timestamp := [1483228800]
            pair := ⟨"BTC", "ETH"⟩
            type := "buy"
            rate := 100
            cost := 100 * 2
            cost_currency := "BTC"
            fee := 2 * (1 / 100)
            fee_currency := "ETH"
            amount := 2
            location := "poloniex" }, ?_, rfl, rfl⟩
  simp [trade_from_poloniex, get_pair_position]

/-- C7: For every raw poloniex trade record whose side is neither `buy`
nor `sell`, `trade_from_poloniex` fails with a ValueError-class error and
never returns a trade. -/
theorem trade_from_poloniex_unknown_type_errors (cts : String → Nat)
    (t : PoloniexTrade) (pair : TradePair)
    (h1 : t.type ≠ "buy") (h2 : t.type ≠ "sell") :
    trade_from_poloniex cts t pair =
      Except.error ("Got unexpected trade type \"" ++ t.type ++ "\" for poloniex trade") := by
  simp [trade_from_poloniex, h1, h2]

/-- Witness for C7 at the concrete unknown side `cancel`. -/
theorem trade_from_poloniex_unknown_type_errors_witness :
    trade_from_poloniex (fun _ => 0)
        ⟨"cancel", 2, 100, 1 / 100, "2017-01-01 00:00:00", "exchange"⟩ ⟨"BTC", "ETH"⟩
      = Except.error ("Got unexpected trade type \"" ++ "cancel" ++ "\" for poloniex trade") :=
  trade_from_poloniex_unknown_type_errors (fun _ => 0)
    ⟨"cancel", 2, 100, 1 / 100, "2017-01-01 00:00:00", "exchange"⟩ ⟨"BTC", "ETH"⟩
    (by decide) (by decide)

/-- C8: For every response whose `return` field is a list, `post_process`
rewrites the list elementwise, giving each dict element that carries a
`datetime` key but no `timestamp` key a `timestamp` key equal to the
parsed numeric timestamp of its `datetime` value, and leaving every
element that already has a `timestamp` key, every dict without a
`datetime` key, every non-dict element, and every other part of the
response unchanged. -/
theorem post_process_attaches_timestamps (cts : String → Nat)
    (before : Response) (xs : List RetElem)
    (h : before.ret = some (RetVal.list xs)) :
    post_process cts before =
        { before with ret := some (RetVal.list (xs.map (post_process_elem cts))) }
      ∧ (∀ d dt, d.datetime = some dt → d.timestamp = none →
          post_process_elem cts (RetElem.dict d) =
            RetElem.dict { d with timestamp := some (cts dt) })
      ∧ (∀ d ts, d.timestamp = some ts →
          post_process_elem cts (RetElem.dict d) = RetElem.dict d)
      ∧ (∀ d, d.datetime = none →
          post_process_elem cts (RetElem.dict d) = RetElem.dict d)
      ∧ (∀ s, post_process_elem cts (RetElem.nondict s) = RetElem.nondict s) := by
  refine ⟨?_, ?_, ?_, ?_, ?_⟩
  · simp [post_process, h]
  · intro d dt h1 h2
    simp [post_process_elem, h1, h2]
  · intro d ts h1
    cases hd : d.datetime <;> simp [post_process_elem, h1, hd]
  · intro d h1
    cases ht : d.timestamp <;> simp [post_process_elem, h1, ht]
  · intro s
    rfl

/-- Witness for C8 on a response with a two-element return list. -/
theorem post_process_attaches_timestamps_witness :
    post_process (fun _ => 42)
        ⟨some (RetVal.list [RetElem.dict ⟨some "2017-01-01 00:00:00", none, []⟩,
          RetElem.nondict "x"]), [("k", "v")]⟩ =
        { (⟨some (RetVal.list [RetElem.dict ⟨some "2017-01-01 00:00:00", none, []⟩,
            RetElem.nondict "x"]), [("k", "v")]⟩ : Response) with
          ret := some (RetVal.list
            ([RetElem.dict ⟨some "2017-01-01 00:00:00", none, []⟩,
              RetElem.nondict "x"].map (post_process_elem (fun _ => 42)))) }
      ∧ (∀ d dt, d.datetime = some dt → d.timestamp = none →
          post_process_elem (fun _ => 42) (RetElem.dict d) =
            RetElem.dict { d with timestamp := some 42 })
      ∧ (∀ d ts, d.timestamp = some ts →
          post_process_elem (fun _ => 42) (RetElem.dict d) = RetElem.dict d)
      ∧ (∀ d, d.datetime = none →
          post_process_elem (fun _ => 42) (RetElem.dict d) = RetElem.dict d)
      ∧ (∀ s, post_process_elem (fun _ => 42) (RetElem.nondict s) = RetElem.nondict s) :=
  post_process_attaches_timestamps (fun _ => 42)
    ⟨some (RetVal.list [RetElem.dict ⟨some "2017-01-01 00:00:00", none, []⟩,
      RetElem.nondict "x"]), [("k", "v")]⟩
    [RetElem.dict ⟨some "2017-01-01 00:00:00", none, []⟩, RetElem.nondict "x"] rfl

/-- Helper: whichever way the raw deposits/withdrawals result was obtained
(fresh from the endpoint on a cache miss, or from the cache), the movement
list returned by `query_deposits_withdrawals` is `movements_from_result`
of that raw result. -/
theorem query_deposits_withdrawals_fst (cache : Option (CacheEntry DWResult))
    (api : Nat → Nat → DWResult) (s e eal : Nat) (result : DWResult)
    (h : (check_trades_cache cache s eal = none ∧ result = api s e)
       ∨ check_trades_cache cache s eal = some result) :
    (query_deposits_withdrawals cache api s e eal).1 = movements_from_result result := by
  rcases h with ⟨hmiss, hres⟩ | hhit
  · subst hres
    simp [query_deposits_withdrawals, hmiss]
  · simp [query_deposits_withdrawals, hhit]

/-- C9: For every deposits/withdrawals result set (fresh or cached),
`query_deposits_withdrawals` maps each raw withdrawal to an
`AssetMovement` with category `withdrawal` whose fee equals the raw
record's fee unchanged, and each raw deposit to an `AssetMovement` with
category `deposit` whose fee is exactly zero. -/
theorem query_deposits_withdrawals_fee_rules (cache : Option (CacheEntry DWResult))
    (api : Nat → Nat → DWResult) (s e eal : Nat) (result : DWResult)
    (h : (check_trades_cache cache s eal = none ∧ result = api s e)
       ∨ check_trades_cache cache s eal = some result) :
    (query_deposits_withdrawals cache api s e eal).1 =
      result.withdrawals.map
        (fun w => ⟨"poloniex", "withdrawal", w.timestamp, w.currency, w.amount, w.fee⟩)
      ++ result.deposits.map
        (fun d => ⟨"poloniex", "deposit", d.timestamp, d.currency, d.amount, 0⟩) :=
  query_deposits_withdrawals_fst cache api s e eal result h

/-- Witness for C9 on a one-withdrawal, one-deposit result set obtained
through a cache miss. -/
theorem query_deposits_withdrawals_fee_rules_witness :
    (query_deposits_withdrawals none
        (fun _ _ => ⟨[⟨5, "BTC", 3, 1 / 2⟩], [⟨9, "ETH", 7, 4⟩]⟩) 0 10 10).1 =
      ([⟨5, "BTC", 3, 1 / 2⟩] : List RawMovement).map
        (fun w => ⟨"poloniex", "withdrawal", w.timestamp, w.currency, w.amount, w.fee⟩)
      ++ ([⟨9, "ETH", 7, 4⟩] : List RawMovement).map
        (fun d => ⟨"poloniex", "deposit", d.timestamp, d.currency, d.amount, 0⟩) :=
  query_deposits_withdrawals_fee_rules none
    (fun _ _ => ⟨[⟨5, "BTC", 3, 1 / 2⟩], [⟨9, "ETH", 7, 4⟩]⟩) 0 10 10
    ⟨[⟨5, "BTC", 3, 1 / 2⟩], [⟨9, "ETH", 7, 4⟩]⟩ (Or.inl ⟨rfl, rfl⟩)

/-- C10: For every deposits/withdrawals result set (fresh or cached), the
list returned by `query_deposits_withdrawals` has exactly one
`AssetMovement` per raw record (length = withdrawals + deposits), the
first block consists of the withdrawal movements in raw order and the
second block of the deposit movements in raw order — so every withdrawal
movement precedes every deposit movement. -/
theorem query_deposits_withdrawals_shape (cache : Option (CacheEntry DWResult))
    (api : Nat → Nat → DWResult) (s e eal : Nat) (result : DWResult)
    (h : (check_trades_cache cache s eal = none ∧ result = api s e)
       ∨ check_trades_cache cache s eal = some result) :
    (query_deposits_withdrawals cache api s e eal).1.length =
        result.withdrawals.length + result.deposits.length
      ∧ (∀ i, i < result.withdrawals.length →
          (query_deposits_withdrawals cache api s e eal).1[i]? =
            (result.withdrawals[i]?).map
              (fun w => ⟨"poloniex", "withdrawal", w.timestamp, w.currency, w.amount, w.fee⟩))
      ∧ (∀ j, j < result.deposits.length →
          (query_deposits_withdrawals cache api s e eal).1[result.withdrawals.length + j]? =
            (result.deposits[j]?).map
              (fun d => ⟨"poloniex", "deposit", d.timestamp, d.currency, d.amount, 0⟩)) := by
  have hmain := query_deposits_withdrawals_fst cache api s e eal result h
  refine ⟨?_, ?_, ?_⟩
  · rw [hmain]
    simp [movements_from_result]
  · intro i hi
    rw [hmain, movements_from_result, List.getElem?_append]
    simp [hi]
  · intro j hj
    rw [hmain, movements_from_result, List.getElem?_append]
    have hnot : ¬ result.withdrawals.length + j <
        (result.withdrawals.map
          (fun w => (⟨"poloniex", "withdrawal", w.timestamp, w.currency, w.amount,
            w.fee⟩ : AssetMovement))).length := by
      simp
    rw [if_neg hnot]
    simp

/-- Witness for C10 on a two-withdrawal, one-deposit result set obtained
from a cache hit. -/
theorem query_deposits_withdrawals_shape_witness :
    (query_deposits_withdrawals (some ⟨0, 10, ⟨[⟨1, "BTC", 2, 3⟩, ⟨4, "XMR", 5, 6⟩],
          [⟨7, "ETH", 8, 9⟩]⟩⟩) (fun _ _ => ⟨[], []⟩) 0 9 9).1.length =
        ([⟨1, "BTC", 2, 3⟩, ⟨4, "XMR", 5, 6⟩] : List RawMovement).length +
          ([⟨7, "ETH", 8, 9⟩] : List RawMovement).length
      ∧ (∀ i, i < ([⟨1, "BTC", 2, 3⟩, ⟨4, "XMR", 5, 6⟩] : List RawMovement).length →
          (query_deposits_withdrawals (some ⟨0, 10, ⟨[⟨1, "BTC", 2, 3⟩, ⟨4, "XMR", 5, 6⟩],
              [⟨7, "ETH", 8, 9⟩]⟩⟩) (fun _ _ => ⟨[], []⟩) 0 9 9).1[i]? =
            (([⟨1, "BTC", 2, 3⟩, ⟨4, "XMR", 5, 6⟩] : List RawMovement)[i]?).map
              (fun w => ⟨"poloniex", "withdrawal", w.timestamp, w.currency, w.amount, w.fee⟩))
      ∧ (∀ j, j < ([⟨7, "ETH", 8, 9⟩] : List RawMovement).length →
          (query_deposits_withdrawals (some ⟨0, 10, ⟨[⟨1, "BTC", 2, 3⟩, ⟨4, "XMR", 5, 6⟩],
              [⟨7, "ETH", 8, 9⟩]⟩⟩) (fun _ _ => ⟨[], []⟩) 0 9
              9).1[([⟨1, "BTC", 2, 3⟩, ⟨4, "XMR", 5, 6⟩] : List RawMovement).length + j]? =
            (([⟨7, "ETH", 8, 9⟩] : List RawMovement)[j]?).map
              (fun d => ⟨"poloniex", "deposit", d.timestamp, d.currency, d.amount, 0⟩)) :=
  query_deposits_withdrawals_shape
    (some ⟨0, 10, ⟨[⟨1, "BTC", 2, 3⟩, ⟨4, "XMR", 5, 6⟩], [⟨7, "ETH", 8, 9⟩]⟩⟩)
    (fun _ _ => ⟨[], []⟩) 0 9 9
    ⟨[⟨1, "BTC", 2, 3⟩, ⟨4, "XMR", 5, 6⟩], [⟨7, "ETH", 8, 9⟩]⟩
    (Or.inr (by simp [check_trades_cache]))

/-- C3: On a cache miss, if the trade-history response yields a total row
count across all pairs that reaches the 10,000-row cap,
`query_trade_history` raises a data-completeness error instead of
returning a result, and the trades cache is left unchanged by the failed
operation. -/
theorem query_trade_history_cap_raises (cache : Option (CacheEntry TradesDict))
    (api : Nat → Nat → TradesDict) (s e eal : Nat)
    (hmiss : check_trades_cache cache s eal = none)
    (hcap : 10000 ≤ (api s e).foldl (fun acc kv => acc + kv.2.length) (0 : Nat)) :
    (query_trade_history cache api s e eal).ret =
        Except.error ("Poloniex api has a 10k limit to trade history. Have not implemented" ++
          " a solution for more than 10k trades at the moment")
      ∧ (query_trade_history cache api s e eal).cache = cache := by
  constructor <;> simp [query_trade_history, hmiss, hcap]

/-- Witness for C3: a single pair carrying exactly 10000 rows trips the
cap and leaves the (empty) cache state unchanged. -/
theorem query_trade_history_cap_raises_witness :
    (query_trade_history none
        (fun _ _ => [("BTC_ETH", List.replicate 10000 ⟨"buy", 1, 1, 0, "d", "exchange"⟩)])
        0 1 1).ret =
        Except.error ("Poloniex api has a 10k limit to trade history. Have not implemented" ++
          " a solution for more than 10k trades at the moment")
      ∧ (query_trade_history none
          (fun _ _ => [("BTC_ETH", List.replicate 10000 ⟨"buy", 1, 1, 0, "d", "exchange"⟩)])
          0 1 1).cache = none :=
  query_trade_history_cap_raises none
    (fun _ _ => [("BTC_ETH", List.replicate 10000 ⟨"buy", 1, 1, 0, "d", "exchange"⟩)])
    0 1 1 rfl
    (by simp only [List.foldl_cons, List.foldl_nil, List.length_replicate]; omega)

/-- C4: If the trades-cache lookup returns a stored payload,
`query_trade_history` returns exactly that payload, issues no network
request, and performs no cache update; hence a second call with identical
`[start, end_at_least]` arguments after a successful first call returns
the identical payload with zero additional network calls and no cache
change. -/
theorem query_trade_history_cache_idempotent (cache : Option (CacheEntry TradesDict))
    (api : Nat → Nat → TradesDict) (s e eal : Nat) :
    (∀ c, check_trades_cache cache s eal = some c →
      query_trade_history cache api s e eal = ⟨Except.ok c, cache, 0⟩)
    ∧ (∀ r, eal ≤ e →
        (query_trade_history cache api s e eal).ret = Except.ok r →
        query_trade_history (query_trade_history cache api s e eal).cache api s e eal =
          ⟨Except.ok r, (query_trade_history cache api s e eal).cache, 0⟩) := by
  constructor
  · intro c hc
    simp [query_trade_history, hc]
  · intro r heal hr
    cases hc : check_trades_cache cache s eal with
    | some c =>
      have hq : query_trade_history cache api s e eal = ⟨Except.ok c, cache, 0⟩ := by
        simp [query_trade_history, hc]
      rw [hq] at hr ⊢
      simp only at hr
      cases hr
      simp [query_trade_history, hc]
    | none =>
      by_cases hcap : 10000 ≤ (api s e).foldl (fun acc kv => acc + kv.2.length) (0 : Nat)
      · have hq : (query_trade_history cache api s e eal).ret =
            Except.error ("Poloniex api has a 10k limit to trade history. Have not implemented" ++
              " a solution for more than 10k trades at the moment") := by
          simp [query_trade_history, hc, hcap]
        rw [hq] at hr
        cases hr
      · have hq : query_trade_history cache api s e eal =
            ⟨Except.ok (api s e), some ⟨s, e, api s e⟩, 1⟩ := by
          simp [query_trade_history, hc, hcap, update_trades_cache]
        rw [hq] at hr ⊢
        simp only at hr
        cases hr
        have hc2 : check_trades_cache (some (⟨s, e, api s e⟩ : CacheEntry TradesDict)) s eal =
            some (api s e) := by
          simp [check_trades_cache, heal]
        simp [query_trade_history, hc2]

/-- Witness for C4: a hit on a stored empty payload, and a miss-then-hit
pair of calls through an endpoint with no rows. -/
theorem query_trade_history_cache_idempotent_witness :
    (query_trade_history (some ⟨0, 10, ([] : TradesDict)⟩) (fun _ _ => []) 0 7 5 =
        ⟨Except.ok ([] : TradesDict), some ⟨0, 10, ([] : TradesDict)⟩, 0⟩)
    ∧ (query_trade_history
          (query_trade_history none (fun _ _ => ([] : TradesDict)) 0 7 5).cache
          (fun _ _ => []) 0 7 5 =
        ⟨Except.ok ([] : TradesDict),
          (query_trade_history none (fun _ _ => ([] : TradesDict)) 0 7 5).cache, 0⟩) :=
  ⟨(query_trade_history_cache_idempotent (some ⟨0, 10, ([] : TradesDict)⟩)
      (fun _ _ => []) 0 7 5).1 [] (by simp [check_trades_cache]),
   (query_trade_history_cache_idempotent none (fun _ _ => []) 0 7 5).2 []
      (by decide) rfl⟩

/-- Unfolding of one iteration of the loan-pagination loop. -/
theorem query_loan_history_loop_succ (cts : String → Nat) (api : Nat → Nat → List Loan)
    (s e fuel : Nat) (result data : List Loan) (id_set : List Nat) :
    query_loan_history_loop cts api s e (fuel + 1) result data id_set =
      if result.length = loans_query_return_limit then
        query_loan_history_loop cts api s e fuel
          (api s (scan_batch cts e id_set result).1)
          (data ++ append_new_loans (scan_batch cts e id_set result).2
            (api s (scan_batch cts e id_set result).1))
          (scan_batch cts e id_set result).2
      else data := rfl

/-- `scan_batch` only ever lowers the running minimum, and its result is a
lower bound of the close-timestamps of the scanned rows. -/
theorem scan_batch_fst_le (cts : String → Nat) :
    ∀ (r : List Loan) (acc : Nat) (ids : List Nat),
      (scan_batch cts acc ids r).1 ≤ acc ∧
        ∀ l ∈ r, (scan_batch cts acc ids r).1 ≤ cts l.close := by
  intro r
  induction r with
  | nil =>
    intro acc ids
    exact ⟨Nat.le_refl _, by simp⟩
  | cons loan rest ih =>
    intro acc ids
    have h := ih (min acc (cts loan.close)) (ids.insert loan.id)
    refine ⟨Nat.le_trans h.1 (Nat.min_le_left _ _), ?_⟩
    intro l hl
    rcases List.mem_cons.mp hl with rfl | hl
    · exact Nat.le_trans h.1 (Nat.min_le_right _ _)
    · exact h.2 l hl

/-- Unfolding of one step of `scan_batch`. -/
theorem scan_batch_cons (cts : String → Nat) (acc : Nat) (ids : List Nat)
    (loan : Loan) (rest : List Loan) :
    scan_batch cts acc ids (loan :: rest) =
      scan_batch cts (min acc (cts loan.close)) (ids.insert loan.id) rest := rfl

/-- The minimum `scan_batch` produces is the seed or the close-timestamp
of one of the scanned rows. -/
theorem scan_batch_fst_eq_init_or_mem (cts : String → Nat) :
    ∀ (r : List Loan) (acc : Nat) (ids : List Nat),
      (scan_batch cts acc ids r).1 = acc ∨
        ∃ l ∈ r, (scan_batch cts acc ids r).1 = cts l.close := by
  intro r
  induction r with
  | nil =>
    intro acc ids
    exact Or.inl rfl
  | cons loan rest ih =>
    intro acc ids
    rw [scan_batch_cons]
    rcases ih (min acc (cts loan.close)) (ids.insert loan.id) with h | ⟨l, hl, hx⟩
    · rcases Nat.le_total acc (cts loan.close) with hle | hle
      · exact Or.inl (by rw [h]; exact min_eq_left hle)
      · exact Or.inr ⟨loan, List.mem_cons_self _ _, by rw [h]; exact min_eq_right hle⟩
    · exact Or.inr ⟨l, List.mem_cons_of_mem _ hl, hx⟩

/-- Membership in the seen-id set after a `scan_batch` pass: the old ids
plus the ids of all scanned rows. -/
theorem scan_batch_snd_mem (cts : String → Nat) :
    ∀ (r : List Loan) (acc : Nat) (ids : List Nat) (x : Nat),
      x ∈ (scan_batch cts acc ids r).2 ↔ x ∈ ids ∨ ∃ l ∈ r, l.id = x := by
  intro r
  induction r with
  | nil =>
    intro acc ids x
    simp [scan_batch]
  | cons loan rest ih =>
    intro acc ids x
    rw [show scan_batch cts acc ids (loan :: rest) =
        scan_batch cts (min acc (cts loan.close)) (ids.insert loan.id) rest from rfl]
    rw [ih]
    simp only [List.mem_insert_iff, List.mem_cons]
    constructor
    · rintro (⟨rfl | h⟩ | ⟨l, hl, hx⟩)
      · exact Or.inr ⟨loan, Or.inl rfl, rfl⟩
      · exact Or.inl h
      · exact Or.inr ⟨l, Or.inr hl, hx⟩
    · rintro (h | ⟨l, rfl | hl, hx⟩)
      · exact Or.inl (Or.inr h)
      · exact Or.inl (Or.inl hx.symm)
      · exact Or.inr ⟨l, hl, hx⟩

/-- The merge pass keeps a sublist of the fetched rows. -/
theorem append_new_loans_sublist (ids : List Nat) :
    ∀ r : List Loan, List.Sublist (append_new_loans ids r) r := by
  intro r
  induction r with
  | nil =>
    simp [append_new_loans]
  | cons loan rest ih =>
    by_cases h : loan.id ∈ ids
    · rw [show append_new_loans ids (loan :: rest) = append_new_loans ids rest from by
        simp [append_new_loans, h]]
      exact List.Sublist.cons _ ih
    · rw [show append_new_loans ids (loan :: rest) = loan :: append_new_loans ids rest from by
        simp [append_new_loans, h]]
      exact List.Sublist.cons₂ _ ih

/-- Every row the merge pass keeps comes from the fetched rows and its id
was not in the seen-id set. -/
theorem append_new_loans_mem (ids : List Nat) :
    ∀ (r : List Loan) (l : Loan), l ∈ append_new_loans ids r → l ∈ r ∧ l.id ∉ ids := by
  intro r
  induction r with
  | nil =>
    intro l h
    simp [append_new_loans] at h
  | cons loan rest ih =>
    intro l h
    by_cases hm : loan.id ∈ ids
    · rw [show append_new_loans ids (loan :: rest) = append_new_loans ids rest from by
        simp [append_new_loans, hm]] at h
      rcases ih l h with ⟨h1, h2⟩
      exact ⟨List.mem_cons_of_mem _ h1, h2⟩
    · rw [show append_new_loans ids (loan :: rest) = loan :: append_new_loans ids rest from by
        simp [append_new_loans, hm]] at h
      rcases List.mem_cons.mp h with rfl | h
      · exact ⟨List.mem_cons_self _ _, hm⟩
      · rcases ih l h with ⟨h1, h2⟩
        exact ⟨List.mem_cons_of_mem _ h1, h2⟩

/-- C1: In `query_loan_history`, whenever a lending-history response
contains strictly fewer rows than the configured limit (12000), the
pagination loop terminates and the accumulated rows are returned;
otherwise (the response holding exactly the limit, all of its rows closing
inside the queried window) every returned row's id is recorded into the
seen-id set and a new request is issued for the window
`[start_ts, min_ts]` with the same limit, where `min_ts` is the minimum
close-timestamp among the returned rows. -/
theorem query_loan_history_pagination (cts : String → Nat) (api : Nat → Nat → List Loan)
    (start_ts end_ts fuel : Nat) (result data : List Loan) (id_set : List Nat) :
    (result.length < loans_query_return_limit →
      query_loan_history_loop cts api start_ts end_ts fuel result data id_set = data)
    ∧ (result.length = loans_query_return_limit →
        (∀ l ∈ result, cts l.close ≤ end_ts) →
        ∃ min_ts id_set2,
          (∃ l ∈ result, min_ts = cts l.close)
          ∧ (∀ l ∈ result, min_ts ≤ cts l.close)
          ∧ (∀ l ∈ result, l.id ∈ id_set2)
          ∧ (∀ x, x ∈ id_set2 ↔ x ∈ id_set ∨ ∃ l ∈ result, l.id = x)
          ∧ query_loan_history_loop cts api start_ts end_ts (fuel + 1) result data id_set =
              query_loan_history_loop cts api start_ts end_ts fuel (api start_ts min_ts)
                (data ++ append_new_loans id_set2 (api start_ts min_ts)) id_set2) := by
  constructor
  · intro h
    cases fuel with
    | zero => rfl
    | succ n =>
      rw [query_loan_history_loop_succ, if_neg (Nat.ne_of_lt h)]
  · intro hlen hclose
    refine ⟨(scan_batch cts end_ts id_set result).1, (scan_batch cts end_ts id_set result).2,
      ?_, ?_, ?_, ?_, ?_⟩
    · rcases scan_batch_fst_eq_init_or_mem cts result end_ts id_set with h | ⟨l, hl, hx⟩
      · have hne : result ≠ [] := by
          intro hnil
          rw [hnil] at hlen
          simp [loans_query_return_limit] at hlen
        obtain ⟨l0, hl0⟩ := List.exists_mem_of_ne_nil result hne
        refine ⟨l0, hl0, ?_⟩
        have h1 := (scan_batch_fst_le cts result end_ts id_set).2 l0 hl0
        have h2 := hclose l0 hl0
        omega
      · exact ⟨l, hl, hx⟩
    · exact (scan_batch_fst_le cts result end_ts id_set).2
    · intro l hl
      exact (scan_batch_snd_mem cts result end_ts id_set l.id).mpr (Or.inr ⟨l, hl, rfl⟩)
    · intro x
      exact scan_batch_snd_mem cts result end_ts id_set x
    · rw [query_loan_history_loop_succ, if_pos hlen]

/-- Witness for C1: a short response returns the accumulator unchanged,
and a full 12000-row response triggers one re-windowed request. -/
theorem query_loan_history_pagination_witness :
    (query_loan_history_loop (fun _ => 0) (fun _ _ => []) 0 5 3 [] [⟨1, "a"⟩] [] = [⟨1, "a"⟩])
    ∧ (∃ min_ts id_set2,
        (∃ l ∈ List.replicate 12000 (⟨7, "c"⟩ : Loan), min_ts = (fun _ => 0) l.close)
        ∧ (∀ l ∈ List.replicate 12000 (⟨7, "c"⟩ : Loan), min_ts ≤ (fun _ => 0) l.close)
        ∧ (∀ l ∈ List.replicate 12000 (⟨7, "c"⟩ : Loan), l.id ∈ id_set2)
        ∧ (∀ x, x ∈ id_set2 ↔ x ∈ ([] : List Nat) ∨
            ∃ l ∈ List.replicate 12000 (⟨7, "c"⟩ : Loan), l.id = x)
        ∧ query_loan_history_loop (fun _ => 0) (fun _ _ => []) 0 5 1
              (List.replicate 12000 ⟨7, "c"⟩) [] [] =
            query_loan_history_loop (fun _ => 0) (fun _ _ => []) 0 5 0 []
              ([] ++ append_new_loans id_set2 []) id_set2) :=
  ⟨(query_loan_history_pagination (fun _ => 0) (fun _ _ => []) 0 5 3 [] [⟨1, "a"⟩] []).1
      (by decide),
   (query_loan_history_pagination (fun _ => 0) (fun _ _ => []) 0 5 0
      (List.replicate 12000 ⟨7, "c"⟩) [] []).2
      (by simp only [List.length_replicate]; rfl)
      (by intro l hl; exact Nat.zero_le 5)⟩

/-- Invariant of the loan-pagination loop: if the accumulated ids are
distinct and each is either already seen or present in the current
response, and every server response has pairwise-distinct ids, then the
final accumulated ids are distinct. -/
theorem query_loan_history_loop_nodup (cts : String → Nat) (api : Nat → Nat → List Loan)
    (s e : Nat) (hapi : ∀ a b, ((api a b).map Loan.id).Nodup) :
    ∀ (fuel : Nat) (result data : List Loan) (id_set : List Nat),
      (data.map Loan.id).Nodup →
      (∀ x ∈ data.map Loan.id, x ∈ id_set ∨ ∃ l ∈ result, l.id = x) →
      ((query_loan_history_loop cts api s e fuel result data id_set).map Loan.id).Nodup := by
  intro fuel
  induction fuel with
  | zero =>
    intro result data ids h1 _
    exact h1
  | succ n ih =>
    intro result data ids h1 h2
    by_cases hl : result.length = loans_query_return_limit
    · rw [query_loan_history_loop_succ, if_pos hl]
      apply ih
      · rw [List.map_append]
        apply List.Nodup.append h1
        · exact List.Nodup.sublist
            ((append_new_loans_sublist (scan_batch cts e ids result).2
              (api s (scan_batch cts e ids result).1)).map Loan.id)
            (hapi s (scan_batch cts e ids result).1)
        · intro x hx hx2
          rcases List.mem_map.mp hx2 with ⟨l, hl2, rfl⟩
          have hnot := (append_new_loans_mem (scan_batch cts e ids result).2
            (api s (scan_batch cts e ids result).1) l hl2).2
          apply hnot
          rcases h2 _ hx with hin | ⟨l3, hl3, hid⟩
          · exact (scan_batch_snd_mem cts result e ids l.id).mpr (Or.inl hin)
          · exact (scan_batch_snd_mem cts result e ids l.id).mpr (Or.inr ⟨l3, hl3, hid⟩)
      · intro x hx
        rw [List.map_append] at hx
        rcases List.mem_append.mp hx with hx | hx
        · left
          rcases h2 x hx with hin | ⟨l3, hl3, hid⟩
          · exact (scan_batch_snd_mem cts result e ids x).mpr (Or.inl hin)
          · exact (scan_batch_snd_mem cts result e ids x).mpr (Or.inr ⟨l3, hl3, hid⟩)
        · right
          rcases List.mem_map.mp hx with ⟨l, hl2, rfl⟩
          exact ⟨l, (append_new_loans_mem (scan_batch cts e ids result).2
            (api s (scan_batch cts e ids result).1) l hl2).1, rfl⟩
    · rw [query_loan_history_loop_succ, if_neg hl]
      exact h1

/-- C2: For every execution of `query_loan_history` that misses the cache
and in which each individual server response has pairwise-distinct loan
ids, the returned list contains no two records with the same id. -/
theorem query_loan_history_unique_ids (cts : String → Nat) (api : Nat → Nat → List Loan)
    (cache : Option (CacheEntry (List Loan))) (s e eal fuel : Nat)
    (hmiss : check_trades_cache cache s eal = none)
    (hapi : ∀ a b, ((api a b).map Loan.id).Nodup) :
    (((query_loan_history cts api cache s e eal fuel).1).map Loan.id).Nodup := by
  have hq : (query_loan_history cts api cache s e eal fuel).1 =
      query_loan_history_loop cts api s e fuel (api s e) (api s e) [] := by
    simp [query_loan_history, hmiss]
  rw [hq]
  apply query_loan_history_loop_nodup cts api s e hapi fuel (api s e) (api s e) []
  · exact hapi s e
  · intro x hx
    rcases List.mem_map.mp hx with ⟨l, hl, rfl⟩
    exact Or.inr ⟨l, hl, rfl⟩

/-- Witness for C2 on an empty cache and an endpoint with no rows. -/
theorem query_loan_history_unique_ids_witness :
    (((query_loan_history (fun _ => 0) (fun _ _ => []) none 0 9 9 5).1).map Loan.id).Nodup :=
  query_loan_history_unique_ids (fun _ => 0) (fun _ _ => []) none 0 9 9 5 rfl
    (by intro a b; simp)

end Rotki
